import Mathlib

/-!
Verification of the force-directed network-graph component of the
d3-complex-charts repository, a shallow embedding of the component's data
model and event handlers (data fetch/validation, zoom controls, hover
highlighting, drag pinning, resize handling, simulation pre-warm, color
scale, tooltip connection counts).
-/

namespace NetworkGraph

/-- A node of the network dataset: `{id: string, group: number}`. -/
structure NetworkNode where
  id : String
  group : Int
  deriving DecidableEq, Repr

/-- A link of the network dataset: `{source: string, target: string, value: number}`. -/
structure NetworkLink where
  source : String
  target : String
  value : Int
  deriving DecidableEq, Repr

/-- The raw dataset payload: `{nodes, links}`. -/
structure NetworkData where
  nodes : List NetworkNode
  links : List NetworkLink
  deriving DecidableEq, Repr

/-- `new Set(jsonData.nodes.map(node => node.id))`, modelled as the list of ids
(membership is what the code queries). -/
def nodeIdSet (nodes : List NetworkNode) : List String :=
  nodes.map (·.id)

/-- The predicate `nodeIds.has(link.source) && nodeIds.has(link.target)` used to
keep a link. -/
def linkValid (nodeIds : List String) (link : NetworkLink) : Bool :=
  nodeIds.contains link.source && nodeIds.contains link.target

/-- The validation step of `fetchData`: compute the invalid links
(`!nodeIds.has(link.source) || !nodeIds.has(link.target)`); if any exist,
replace `links` by the sub-list of valid links, otherwise keep the payload. -/
def validateData (raw : NetworkData) : NetworkData :=
  let nodeIds := nodeIdSet raw.nodes
  let invalidLinks := raw.links.filter
    (fun link => !(nodeIds.contains link.source) || !(nodeIds.contains link.target))
  let validLinks := raw.links.filter
    (fun link => nodeIds.contains link.source && nodeIds.contains link.target)
  if invalidLinks.length > 0 then
    { raw with links := validLinks }
  else
    raw

/-- The count of links dropped by validation: `invalidLinks.length`. -/
def droppedLinkCount (raw : NetworkData) : Nat :=
  (raw.links.filter
    (fun link => !((nodeIdSet raw.nodes).contains link.source)
      || !((nodeIdSet raw.nodes).contains link.target))).length

lemma invalid_filter_eq_not_valid (nodeIds : List String) (links : List NetworkLink) :
    links.filter (fun link => !(nodeIds.contains link.source) || !(nodeIds.contains link.target))
      = links.filter (fun link => !(linkValid nodeIds link)) := by
  apply List.filter_congr
  intro link _
  simp [linkValid]

lemma validateData_links (raw : NetworkData) :
    (validateData raw).links = raw.links.filter (linkValid (nodeIdSet raw.nodes)) := by
  unfold validateData
  simp only [invalid_filter_eq_not_valid]
  split
  · apply List.filter_congr
    intro link _
    simp [linkValid]
  · rename_i h
    rw [not_lt, Nat.le_zero, List.length_eq_zero, List.filter_eq_nil_iff] at h
    symm
    rw [List.filter_eq_self]
    intro link hmem
    have := h link hmem
    simpa using this

lemma validateData_nodes (raw : NetworkData) :
    (validateData raw).nodes = raw.nodes := by
  unfold validateData
  dsimp only
  split <;> rfl

/-- C1: The validated link set is exactly the raw links whose source and target
are both node ids, and the raw link count is the surviving count plus the
dropped count (so the number of dropped links is the number of raw links
failing the validity predicate). -/
theorem validate_filters_links (raw : NetworkData) :
    (validateData raw).links = raw.links.filter (linkValid (nodeIdSet raw.nodes))
    ∧ raw.links.length = (validateData raw).links.length + droppedLinkCount raw := by
  refine ⟨validateData_links raw, ?_⟩
  · rw [validateData_links]
    unfold droppedLinkCount
    rw [invalid_filter_eq_not_valid]
    simpa using List.length_eq_length_filter_add (l := raw.links) (linkValid (nodeIdSet raw.nodes))

/-! ### Zoom controls (C2, C4) -/

/-- The three discrete zoom control triggers of the component. -/
inductive ZoomOp where
  | zIn
  | zOut
  | zReset
  deriving DecidableEq, Repr

/-- `handleZoomIn`: `Math.min(zoomLevel + 0.2, 3)`. -/
def handleZoomIn (zoomLevel : ℚ) : ℚ :=
  min (zoomLevel + 1/5) 3

/-- `handleZoomOut`: `Math.max(zoomLevel - 0.2, 0.5)`. -/
def handleZoomOut (zoomLevel : ℚ) : ℚ :=
  max (zoomLevel - 1/5) (1/2)

/-- Effect of one zoom trigger on the scale factor (`handleZoomReset` sets it
to 1). -/
def applyZoomOp (zoomLevel : ℚ) : ZoomOp → ℚ
  | .zIn => handleZoomIn zoomLevel
  | .zOut => handleZoomOut zoomLevel
  | .zReset => 1

/-- Effect of a sequence of consecutive zoom triggers. -/
def applyZoomOps (zoomLevel : ℚ) (ops : List ZoomOp) : ℚ :=
  ops.foldl applyZoomOp zoomLevel

lemma applyZoomOp_mem_range (z : ℚ) (op : ZoomOp) (h1 : 1/2 ≤ z) (h2 : z ≤ 3) :
    1/2 ≤ applyZoomOp z op ∧ applyZoomOp z op ≤ 3 := by
  cases op with
  | zIn =>
    refine ⟨le_min (by linarith) (by norm_num), min_le_right _ _⟩
  | zOut =>
    refine ⟨le_max_right _ _, max_le (by linarith) (by norm_num)⟩
  | zReset =>
    exact ⟨by norm_num [applyZoomOp], by norm_num [applyZoomOp]⟩

/-- C2: starting from any scale factor in [0.5, 3], any sequence of zoom-in,
zoom-out and reset triggers leaves the scale factor in [0.5, 3]. -/
theorem zoom_scale_clamped (z : ℚ) (ops : List ZoomOp) (h1 : 1/2 ≤ z) (h2 : z ≤ 3) :
    1/2 ≤ applyZoomOps z ops ∧ applyZoomOps z ops ≤ 3 := by
  induction ops generalizing z with
  | nil => exact ⟨h1, h2⟩
  | cons op ops ih =>
    have hstep := applyZoomOp_mem_range z op h1 h2
    exact ih (applyZoomOp z op) hstep.1 hstep.2

/-- Witness for C2 at scale 1 and a concrete trigger sequence. -/
theorem zoom_scale_clamped_witness :
    1/2 ≤ applyZoomOps 1 [ZoomOp.zIn, ZoomOp.zIn, ZoomOp.zOut]
      ∧ applyZoomOps 1 [ZoomOp.zIn, ZoomOp.zIn, ZoomOp.zOut] ≤ 3 :=
  zoom_scale_clamped 1 [ZoomOp.zIn, ZoomOp.zIn, ZoomOp.zOut] (by norm_num) (by norm_num)

/-! ### Hover highlighting (C3) -/

/-- The `mouseover` handler's highlight computation: start from
`new Set([d.id])`, then for each simulation link touching the hovered node add
both of its endpoint ids. -/
def highlightSet (links : List NetworkLink) (hoveredId : String) : Finset String :=
  links.foldl
    (fun acc link =>
      if link.source = hoveredId ∨ link.target = hoveredId then
        insert link.source (insert link.target acc)
      else acc)
    {hoveredId}

lemma mem_highlight_foldl (links : List NetworkLink) (hoveredId : String)
    (acc : Finset String) (x : String) :
    (x ∈ links.foldl
      (fun acc link =>
        if link.source = hoveredId ∨ link.target = hoveredId then
          insert link.source (insert link.target acc)
        else acc) acc)
      ↔ x ∈ acc ∨ ∃ link ∈ links,
          (link.source = hoveredId ∨ link.target = hoveredId)
            ∧ (x = link.source ∨ x = link.target) := by
  induction links generalizing acc with
  | nil => simp
  | cons link links ih =>
    by_cases htouch : link.source = hoveredId ∨ link.target = hoveredId
    · simp only [List.foldl_cons, if_pos htouch, ih, Finset.mem_insert, List.mem_cons]
      aesop
    · simp only [List.foldl_cons, if_neg htouch, ih, List.mem_cons]
      aesop

/-- C3: the highlight set is exactly the hovered node plus every endpoint of a
link incident to it (the induced one-hop neighborhood); in particular with
links A–B and A–C, hovering A highlights exactly {A, B, C}, and hovering a
node incident to no link highlights only itself. -/
theorem highlight_is_one_hop_neighborhood :
    (∀ (links : List NetworkLink) (hoveredId x : String),
      x ∈ highlightSet links hoveredId
        ↔ x = hoveredId ∨ ∃ link ∈ links,
            (link.source = hoveredId ∨ link.target = hoveredId)
              ∧ (x = link.source ∨ x = link.target))
    ∧ highlightSet [⟨"A", "B", 1⟩, ⟨"A", "C", 1⟩] "A" = {"A", "B", "C"}
    ∧ highlightSet [⟨"A", "B", 1⟩, ⟨"A", "C", 1⟩] "D" = {"D"} := by
  refine ⟨?_, by decide, by decide⟩
  intro links hoveredId x
  unfold highlightSet
  rw [mem_highlight_foldl]
  simp

/-! ### Zoom reset (C4) -/

/-- A d3 zoom transform: scale factor `k` and translation `(x, y)`. -/
structure ZoomTransform where
  k : ℚ
  x : ℚ
  y : ℚ
  deriving DecidableEq, Repr

/-- `d3.zoomIdentity`: scale 1, translation (0, 0). -/
def zoomIdentity : ZoomTransform :=
  { k := 1, x := 0, y := 0 }

/-- `handleZoomReset` applies `d3.zoomIdentity` to the view transform,
whatever the current transform is. -/
def handleZoomReset (_current : ZoomTransform) : ZoomTransform :=
  zoomIdentity

/-- C4: zoom-reset yields scale exactly 1 and translation (0, 0) from any
transform, and is idempotent. -/
theorem zoom_reset_identity_idempotent (t : ZoomTransform) :
    (handleZoomReset t).k = 1 ∧ (handleZoomReset t).x = 0 ∧ (handleZoomReset t).y = 0
    ∧ handleZoomReset (handleZoomReset t) = handleZoomReset t :=
  ⟨rfl, rfl, rfl, rfl⟩

/-! ### Color scale (C5) -/

/-- `d3.schemeCategory10`: the fixed 10-color categorical palette. -/
def schemeCategory10 : List String :=
  ["#1f77b4", "#ff7f0e", "#2ca02c", "#d62728", "#9467bd",
   "#8c564b", "#e377c2", "#7f7f7f", "#bcbd22", "#17becf"]

/-- `Array.from(new Set(data.nodes.map(node => node.group)))`: the distinct
group identifiers of the node array in first-seen order (JS `Set` iterates in
insertion order and keeps the first occurrence). -/
def groupIds (nodes : List NetworkNode) : List Int :=
  nodes.foldl (fun acc node => if node.group ∈ acc then acc else acc ++ [node.group]) []

/-- The index a d3 ordinal scale assigns to a domain value: its position in
the domain list (first match). -/
def domainIndex : List Int → Int → Nat
  | [], _ => 0
  | g :: gs, group => if group = g then 0 else domainIndex gs group + 1

/-- The ordinal color scale `d3.scaleOrdinal().domain(groupIds).range(schemeCategory10)`:
the domain value at position `i` is mapped to range entry `i % 10` (the range
wraps cyclically when the domain is longer than the range). -/
def colorScale (nodes : List NetworkNode) (group : Int) : String :=
  schemeCategory10.getD (domainIndex (groupIds nodes) group % 10) ""

lemma foldl_groupIds_nodup (nodes : List NetworkNode) (acc : List Int) (hacc : acc.Nodup) :
    (nodes.foldl (fun acc node => if node.group ∈ acc then acc else acc ++ [node.group])
      acc).Nodup := by
  induction nodes generalizing acc with
  | nil => exact hacc
  | cons n ns ih =>
    simp only [List.foldl_cons]
    by_cases h : n.group ∈ acc
    · rw [if_pos h]
      exact ih acc hacc
    · rw [if_neg h]
      refine ih _ (List.Nodup.append hacc (List.nodup_singleton _) ?_)
      intro a ha hb
      rw [List.mem_singleton] at hb
      subst hb
      exact h ha

lemma groupIds_nodup (nodes : List NetworkNode) : (groupIds nodes).Nodup :=
  foldl_groupIds_nodup nodes [] List.nodup_nil

lemma domainIndex_get (l : List Int) (hnd : l.Nodup) (i : Nat) (h : i < l.length) :
    domainIndex l (l.get ⟨i, h⟩) = i := by
  induction l generalizing i with
  | nil => simp at h
  | cons g gs ih =>
    rw [List.nodup_cons] at hnd
    cases i with
    | zero => simp [domainIndex]
    | succ i =>
      have hlt : i < gs.length := by simpa using h
      have hmem : gs.get ⟨i, hlt⟩ ∈ gs := List.get_mem gs _ _
      have hne : gs.get ⟨i, hlt⟩ ≠ g := fun e => hnd.1 (e ▸ hmem)
      simp only [List.get_cons_succ, domainIndex, if_neg hne]
      rw [ih hnd.2 i hlt]

lemma schemeCategory10_getD_injOn :
    ∀ a, a < 10 → ∀ b, b < 10 → a ≠ b →
      schemeCategory10.getD a "" ≠ schemeCategory10.getD b "" := by decide

/-- C5: the group at first-seen position `i` of the node array receives palette
color `i % 10`; two groups whose first-seen positions differ by a non-multiple
of 10 receive distinct colors; and with at most 10 distinct groups, distinct
groups always receive distinct colors. -/
theorem color_assignment (nodes : List NetworkNode) (i j : Nat)
    (hi : i < (groupIds nodes).length) (hj : j < (groupIds nodes).length) :
    colorScale nodes ((groupIds nodes).get ⟨i, hi⟩) = schemeCategory10.getD (i % 10) ""
    ∧ (((i : ℤ) - (j : ℤ)) % 10 ≠ 0 →
        colorScale nodes ((groupIds nodes).get ⟨i, hi⟩)
          ≠ colorScale nodes ((groupIds nodes).get ⟨j, hj⟩))
    ∧ ((groupIds nodes).length ≤ 10 → i ≠ j →
        colorScale nodes ((groupIds nodes).get ⟨i, hi⟩)
          ≠ colorScale nodes ((groupIds nodes).get ⟨j, hj⟩)) := by
  have hcolor : ∀ (k : Nat) (hk : k < (groupIds nodes).length),
      colorScale nodes ((groupIds nodes).get ⟨k, hk⟩) = schemeCategory10.getD (k % 10) "" := by
    intro k hk
    unfold colorScale
    rw [domainIndex_get _ (groupIds_nodup nodes) k hk]
  refine ⟨hcolor i hi, ?_, ?_⟩
  · intro hmod
    rw [hcolor i hi, hcolor j hj]
    have hne : i % 10 ≠ j % 10 := by omega
    exact schemeCategory10_getD_injOn _ (Nat.mod_lt _ (by norm_num)) _
      (Nat.mod_lt _ (by norm_num)) hne
  · intro hlen hne
    rw [hcolor i hi, hcolor j hj]
    have hi10 : i < 10 := lt_of_lt_of_le hi hlen
    have hj10 : j < 10 := lt_of_lt_of_le hj hlen
    rw [Nat.mod_eq_of_lt hi10, Nat.mod_eq_of_lt hj10]
    exact schemeCategory10_getD_injOn _ hi10 _ hj10 hne

/-- Witness for C5 on a two-group dataset at first-seen positions 0 and 1. -/
theorem color_assignment_witness :
    colorScale [⟨"a", 1⟩, ⟨"b", 2⟩]
        ((groupIds [⟨"a", 1⟩, ⟨"b", 2⟩]).get ⟨0, by decide⟩)
      = schemeCategory10.getD (0 % 10) ""
    ∧ colorScale [⟨"a", 1⟩, ⟨"b", 2⟩]
        ((groupIds [⟨"a", 1⟩, ⟨"b", 2⟩]).get ⟨0, by decide⟩)
      ≠ colorScale [⟨"a", 1⟩, ⟨"b", 2⟩]
        ((groupIds [⟨"a", 1⟩, ⟨"b", 2⟩]).get ⟨1, by decide⟩) :=
  ⟨(color_assignment [⟨"a", 1⟩, ⟨"b", 2⟩] 0 1 (by decide) (by decide)).1,
   (color_assignment [⟨"a", 1⟩, ⟨"b", 2⟩] 0 1 (by decide) (by decide)).2.1 (by decide)⟩

/-! ### Tooltip connection counts (C10) -/

/-- One `nodeConnectionCounts.set(id, (nodeConnectionCounts.get(id) || 0) + 1)`
step: the JS `Map` is modelled as a total function with `get(id) || 0`
built in. -/
def bumpCount (counts : String → Nat) (id : String) : String → Nat :=
  fun key => if key = id then counts id + 1 else counts key

/-- The `nodeConnectionCounts` map: every link increments the count of its
source id and the count of its target id, starting from the empty map. -/
def nodeConnectionCounts (links : List NetworkLink) : String → Nat :=
  links.foldl (fun counts link => bumpCount (bumpCount counts link.source) link.target)
    (fun _ => 0)

/-- The connection count shown in a node's tooltip:
`nodeConnectionCounts.get(d.id) || 0`. -/
def tooltipConnectionCount (links : List NetworkLink) (id : String) : Nat :=
  nodeConnectionCounts links id

lemma bumpCount_apply (counts : String → Nat) (id key : String) :
    bumpCount counts id key = counts key + (if id = key then 1 else 0) := by
  unfold bumpCount
  by_cases h : key = id
  · rw [if_pos h, if_pos h.symm, h]
  · rw [if_neg h, if_neg (fun e => h e.symm), Nat.add_zero]

lemma foldl_connection_counts (links : List NetworkLink) (counts : String → Nat) (id : String) :
    links.foldl (fun counts link => bumpCount (bumpCount counts link.source) link.target)
        counts id
      = counts id + (links.filter (fun link => link.source == id)).length
          + (links.filter (fun link => link.target == id)).length := by
  induction links generalizing counts with
  | nil => simp
  | cons link links ih =>
    simp only [List.foldl_cons, ih, List.filter_cons, beq_iff_eq]
    rw [bumpCount_apply, bumpCount_apply]
    by_cases hs : link.source = id <;> by_cases ht : link.target = id <;>
      simp only [hs, ht, if_pos, if_neg, List.length_cons, if_true, if_false] <;>
      omega

/-- C10: a node's tooltip connection count is the number of filtered links
with that node as source plus the number with it as target (a self-loop thus
contributes 2, and an untouched node shows 0). -/
theorem tooltip_count_eq_degree (links : List NetworkLink) (id : String) :
    tooltipConnectionCount links id
      = (links.filter (fun link => link.source == id)).length
          + (links.filter (fun link => link.target == id)).length := by
  unfold tooltipConnectionCount nodeConnectionCounts
  rw [foldl_connection_counts]
  omega

/-! ### Drag pinning (C6) -/

/-- A simulation node's mutable physics fields: position, velocity, and the
optional pinned position (`fx`, `fy`; `null` when not pinned). -/
structure DragNode where
  x : ℚ
  y : ℚ
  vx : ℚ
  vy : ℚ
  fx : Option ℚ
  fy : Option ℚ
  deriving DecidableEq, Repr

/-- The simulation state the drag handlers touch: the dragged node and the
simulation's alpha target (the temperature floor). -/
structure SimState where
  node : DragNode
  alphaTarget : ℚ
  deriving DecidableEq, Repr

/-- The drag `start` handler: `if (!event.active) simulation.alphaTarget(0.3).restart()`,
then `event.subject.fx = event.subject.x; event.subject.fy = event.subject.y`. -/
def dragStart (active : Bool) (s : SimState) : SimState :=
  let s1 := if !active then { s with alphaTarget := 3/10 } else s
  { s1 with node := { s1.node with fx := some s1.node.x, fy := some s1.node.y } }

/-- The drag `drag` handler: `event.subject.fx = event.x; event.subject.fy = event.y`. -/
def dragMove (pointerX pointerY : ℚ) (s : SimState) : SimState :=
  { s with node := { s.node with fx := some pointerX, fy := some pointerY } }

/-- The drag `end` handler: `if (!event.active) simulation.alphaTarget(0)`,
then `event.subject.fx = null; event.subject.fy = null`. -/
def dragEnd (active : Bool) (s : SimState) : SimState :=
  let s1 := if !active then { s with alphaTarget := 0 } else s
  { s1 with node := { s1.node with fx := none, fy := none } }

/-- Modelled from the spec: the integration step itself belongs to the
d3-force library, a black-box dependency whose source is not in this
repository. Per the spec, "pinned position, when present, overrides
physics-driven position updates", so a pinned coordinate is set to the pin and
an unpinned coordinate moves by an arbitrary force-determined displacement. -/
def simTick (forceX forceY : ℚ) (s : SimState) : SimState :=
  let n := s.node
  let newX := match n.fx with
    | some pinX => pinX
    | none => n.x + forceX
  let newY := match n.fy with
    | some pinY => pinY
    | none => n.y + forceY
  { s with node := { n with x := newX, y := newY } }

/-- Any number of integration steps, each with an arbitrary force
displacement. -/
def simTicks (forces : List (ℚ × ℚ)) (s : SimState) : SimState :=
  forces.foldl (fun s f => simTick f.1 f.2 s) s

lemma simTick_pinned_fixed (forceX forceY : ℚ) (s : SimState)
    (hx : s.node.fx = some s.node.x) (hy : s.node.fy = some s.node.y) :
    simTick forceX forceY s = s := by
  obtain ⟨⟨x, y, vx, vy, fx, fy⟩, a⟩ := s
  dsimp only at hx hy
  subst hx
  subst hy
  rfl

lemma simTicks_pinned_fixed (forces : List (ℚ × ℚ)) (s : SimState)
    (hx : s.node.fx = some s.node.x) (hy : s.node.fy = some s.node.y) :
    simTicks forces s = s := by
  induction forces with
  | nil => rfl
  | cons f forces ih =>
    unfold simTicks
    rw [List.foldl_cons, simTick_pinned_fixed f.1 f.2 s hx hy]
    exact ih

/-- C6: a pointer-down immediately followed by pointer-up with no pointer
movement — `dragStart` then any number of integration steps then `dragEnd`,
with no other gesture active — keeps the node at its pre-gesture position
throughout, and afterwards the pin is cleared and the alpha target is back
to 0. -/
theorem drag_click_leaves_position (s : SimState) (forces : List (ℚ × ℚ)) :
    (simTicks forces (dragStart false s)).node.x = s.node.x
    ∧ (simTicks forces (dragStart false s)).node.y = s.node.y
    ∧ (dragEnd false (simTicks forces (dragStart false s))).node.x = s.node.x
    ∧ (dragEnd false (simTicks forces (dragStart false s))).node.y = s.node.y
    ∧ (dragEnd false (simTicks forces (dragStart false s))).node.fx = none
    ∧ (dragEnd false (simTicks forces (dragStart false s))).node.fy = none
    ∧ (dragEnd false (simTicks forces (dragStart false s))).alphaTarget = 0 := by
  have hfix : simTicks forces (dragStart false s) = dragStart false s :=
    simTicks_pinned_fixed forces (dragStart false s) rfl rfl
  rw [hfix]
  exact ⟨rfl, rfl, rfl, rfl, rfl, rfl, rfl⟩

/-! ### Resize handling (C7) -/

/-- `handleResize` of the NetworkGraph component:
`containerWidth = containerRef.current.clientWidth || 800` (the JS `||`
replaces a falsy width, i.e. 0, by 800), then dimensions
`{width: containerWidth, height: Math.min(containerWidth * 0.75, 600)}`. -/
def networkGraphResize (clientWidth : ℚ) : ℚ × ℚ :=
  let containerWidth := if clientWidth = 0 then 800 else clientWidth
  (containerWidth, min (containerWidth * (3/4)) 600)

/-- `handleResize` of the Treemap component: the identical computation. -/
def treemapResize (clientWidth : ℚ) : ℚ × ℚ :=
  let containerWidth := if clientWidth = 0 then 800 else clientWidth
  (containerWidth, min (containerWidth * (3/4)) 600)

/-- C7 counterexample: at reported width 0 the components fall back to width
800 and height 600, not height `min(0.75 * 0, 600) = 0` as the claim requires
for every reported width. -/
theorem resize_zero_width_counterexample :
    (networkGraphResize 0).2 = 600 ∧ (treemapResize 0).2 = 600
    ∧ min ((0 : ℚ) * (3/4)) 600 = 0
    ∧ (networkGraphResize 0).2 ≠ min ((0 : ℚ) * (3/4)) 600 := by
  refine ⟨?_, ?_, ?_, ?_⟩ <;> norm_num [networkGraphResize, treemapResize]

/-- C7 (amended): for every nonzero reported width `W`, both components
recompute the working dimensions as width `W` and height
`min(W * 0.75, 600)`. -/
theorem resize_height_formula (clientWidth : ℚ) (h : clientWidth ≠ 0) :
    networkGraphResize clientWidth = (clientWidth, min (clientWidth * (3/4)) 600)
    ∧ treemapResize clientWidth = (clientWidth, min (clientWidth * (3/4)) 600) := by
  unfold networkGraphResize treemapResize
  rw [if_neg h]
  exact ⟨rfl, rfl⟩

/-- Witness for C7 (amended) at reported width 400. -/
theorem resize_height_formula_witness :
    (400 : ℚ) ≠ 0
    ∧ (networkGraphResize 400 = (400, min ((400 : ℚ) * (3/4)) 600)
        ∧ treemapResize 400 = (400, min ((400 : ℚ) * (3/4)) 600)) :=
  ⟨by norm_num, resize_height_formula 400 (by norm_num)⟩

/-! ### Simulation pre-warm (C8) -/

/-- The number of synchronous `simulation.tick()` calls issued before the
first positional paint: `for (let i = 0; i < 50; i++) simulation.tick()`. -/
def prewarmTickCount : Nat := 50

/-- The pre-warm loop: the given number of synchronous integration steps
applied to the seeded simulation state (the step itself is the library's
black-box `tick`). -/
def prewarmLoop {α : Type} (tick : α → α) : Nat → α → α
  | 0, state => state
  | count + 1, state => prewarmLoop tick count (tick state)

/-- The construction sequence around the first paint: run the pre-warm loop on
the seeded state, then call `updatePositions()` — the first write of node/link
geometry — recording the painted states in order. -/
def buildVisualization {α : Type} (tick : α → α) (seeded : α) : α × List α :=
  let warmed := prewarmLoop tick prewarmTickCount seeded
  (warmed, [warmed])

lemma prewarmLoop_eq_iterate {α : Type} (tick : α → α) (count : Nat) (state : α) :
    prewarmLoop tick count state = tick^[count] state := by
  induction count generalizing state with
  | zero => rfl
  | succ count ih =>
    rw [prewarmLoop, ih, Function.iterate_succ_apply]

/-- C8: the first positional paint observes the seeded state advanced by
exactly `prewarmTickCount` synchronous integration steps, and that count is
positive (so the first paint never sees the raw seeded positions themselves,
only their image under the pre-warm ticks). -/
theorem first_paint_after_prewarm {α : Type} (tick : α → α) (seeded : α) :
    (buildVisualization tick seeded).2.head? = some (tick^[prewarmTickCount] seeded)
    ∧ 0 < prewarmTickCount := by
  refine ⟨?_, by norm_num [prewarmTickCount]⟩
  unfold buildVisualization
  rw [prewarmLoop_eq_iterate]
  rfl

/-! ### Fetch failure handling (C9) -/

/-- The possible outcomes of the `fetch` / `response.json()` sequence. -/
inductive FetchOutcome where
  | transportFailure
  | httpNotOk
  | malformedPayload
  | success (payload : NetworkData)
  deriving DecidableEq, Repr

/-- The slice of component state the fetch effect writes: `data`, `isLoading`,
`error`. -/
structure ComponentState where
  data : Option NetworkData
  isLoading : Bool
  error : Option String
  deriving DecidableEq, Repr

/-- `fetchData`: a transport failure, a non-OK response
(`throw new Error('Failed to fetch data')`) or a JSON parse failure all land
in the catch block, which sets the error message and clears the loading flag
without ever setting `data`; on success the validated dataset is published. -/
def fetchData : FetchOutcome → ComponentState
  | .success payload =>
    { data := some (validateData payload), isLoading := false, error := none }
  | _ =>
    { data := none, isLoading := false, error := some "Error loading network graph data" }

/-- The guard of the visualization effect:
`if (!data || !svgRef.current || isLoading) return;` — the scene is
constructed only when a dataset is present and loading has finished (the svg
ref is abstracted as present). -/
def vizEffectRuns (s : ComponentState) : Bool :=
  s.data.isSome && !s.isLoading

/-- C9: any failed fetch (transport failure, non-OK response, or malformed
payload) leaves the component with no dataset, the terminal error message set,
and the visualization effect not running; and whatever dataset the component
ever exposes is fully validated — its link set is unchanged by re-filtering
against its own node ids, so no partial dataset reaches downstream
consumers. -/
theorem fetch_failure_terminal (o : FetchOutcome) (d : NetworkData) :
    ((∀ payload, o ≠ FetchOutcome.success payload) →
      (fetchData o).data = none
      ∧ (fetchData o).error = some "Error loading network graph data"
      ∧ vizEffectRuns (fetchData o) = false)
    ∧ ((fetchData o).data = some d →
      d.links = d.links.filter (linkValid (nodeIdSet d.nodes))) := by
  constructor
  · intro hfail
    cases o with
    | success payload => exact absurd rfl (hfail payload)
    | transportFailure => exact ⟨rfl, rfl, rfl⟩
    | httpNotOk => exact ⟨rfl, rfl, rfl⟩
    | malformedPayload => exact ⟨rfl, rfl, rfl⟩
  · intro hdata
    cases o with
    | success payload =>
      have hd : d = validateData payload := by
        simpa [fetchData] using hdata.symm
      subst hd
      rw [validateData_nodes]
      symm
      rw [List.filter_eq_self]
      intro link hmem
      rw [validateData_links] at hmem
      exact List.of_mem_filter hmem
    | transportFailure => simp [fetchData] at hdata
    | httpNotOk => simp [fetchData] at hdata
    | malformedPayload => simp [fetchData] at hdata

/-- Witness for C9: a transport failure on one side, and on the other a
payload with a dangling link whose published dataset is re-filter stable. -/
theorem fetch_failure_terminal_witness :
    ((fetchData FetchOutcome.transportFailure).data = none
      ∧ (fetchData FetchOutcome.transportFailure).error
          = some "Error loading network graph data"
      ∧ vizEffectRuns (fetchData FetchOutcome.transportFailure) = false)
    ∧ ((validateData ⟨[⟨"a", 1⟩, ⟨"b", 1⟩], [⟨"a", "b", 4⟩, ⟨"a", "missing", 1⟩]⟩).links
        = (validateData ⟨[⟨"a", 1⟩, ⟨"b", 1⟩], [⟨"a", "b", 4⟩, ⟨"a", "missing", 1⟩]⟩).links.filter
            (linkValid (nodeIdSet
              (validateData ⟨[⟨"a", 1⟩, ⟨"b", 1⟩], [⟨"a", "b", 4⟩, ⟨"a", "missing", 1⟩]⟩).nodes))) :=
  ⟨(fetch_failure_terminal FetchOutcome.transportFailure ⟨[], []⟩).1
      (fun _ h => FetchOutcome.noConfusion h),
   (fetch_failure_terminal
      (FetchOutcome.success ⟨[⟨"a", 1⟩, ⟨"b", 1⟩], [⟨"a", "b", 4⟩, ⟨"a", "missing", 1⟩]⟩)
      (validateData ⟨[⟨"a", 1⟩, ⟨"b", 1⟩], [⟨"a", "b", 4⟩, ⟨"a", "missing", 1⟩]⟩)).2 rfl⟩

end NetworkGraph
